import Mathlib

/-!
allris-search, `search/search.go`.

A shallow embedding of the indexing code of `search.go` and the properties of
its key resolution, page chunking, enrichment and publish protocol.

Modelling conventions.

* A Go `string` is a Lean `String` (document names and OCR texts are UTF-8
  text); `len` is the number of UTF-8 bytes.  `strings.HasPrefix`,
  `strings.TrimPrefix` and `strings.SplitN` with the one-byte separator `-`
  act on the character list, which is how they act on the bytes of UTF-8 text.
* A `*datastore.Key` is a value of `Key`: `Key.nil` is the nil pointer.
* A Go function that may not return normally yields an `Outcome`: it returns,
  it panics, or it is still running when the recursion budget is used up.
* Go `int` values that count bytes and pages are natural numbers (no input
  that fits in memory reaches 2^63).
-/

namespace Search

/-! ## Go strings -/

/-- The Go builtin `len` on a string: its length in bytes. -/
def len (s : String) : Nat := s.utf8ByteSize

namespace strings

/-- Go `strings.HasPrefix(s, pre)`. -/
def HasPrefix (s pre : String) : Bool := pre.data.isPrefixOf s.data

/-- Go `strings.TrimPrefix(s, pre)`: `s` without the leading `pre`, or `s`
unchanged when it does not start with `pre`. -/
def TrimPrefix (s pre : String) : String :=
  if HasPrefix s pre then String.mk (s.data.drop pre.data.length) else s

/-- The loop of Go `genSplit` for a one-byte separator: at most `n` further
cuts, the rest of the string is the last piece. -/
def splitLoop (sep : Char) : Nat → List Char → List (List Char)
  | 0, s => [s]
  | n + 1, s =>
    match s.span (fun c => c != sep) with
    | (a, []) => [a]
    | (a, _ :: b) => a :: splitLoop sep n b

/-- Go `strings.SplitN(s, sep, n)` for a one-byte separator `sep` and `n ≥ 0`:
at most `n` pieces, the last one the unsplit remainder; no piece for `n = 0`. -/
def SplitN (s : String) (sep : Char) (n : Nat) : List String :=
  match n with
  | 0 => []
  | m + 1 => (splitLoop sep m s.data).map String.mk

end strings

namespace filepath

/-- Go `filepath.Base(path)` with the separator `/`: the last element of the
path, trailing separators removed first; `.` for the empty path and `/` for a
path of separators only. -/
def Base (path : String) : String :=
  if path.data = [] then "."
  else
    let stripped := (path.data.reverse.dropWhile (fun c => c == '/')).reverse
    let last := (stripped.reverse.takeWhile (fun c => c != '/')).reverse
    if last = [] then "/" else String.mk last

end filepath

/-! ## Outcomes of Go calls -/

/-- The run-time panics the code can raise. -/
inductive Panic where
  | indexOutOfRange
  | nilDereference
  deriving DecidableEq, Repr

/-- What a call does: return a value, panic, or not come back within the
recursion budget. -/
inductive Outcome (α : Type) where
  | ret (a : α)
  | panic (p : Panic)
  | diverge
  deriving DecidableEq, Repr

/-- A Go `error` value. -/
abbrev Error := String

/-! ## Datastore keys -/

/-- A `*datastore.Key`: the nil pointer, or a key with a kind, a name and a
parent pointer (`datastore.NameKey(kind, name, parent)`). -/
inductive Key where
  | nil
  | NameKey (Kind : String) (Name : String) (Parent : Key)
  deriving DecidableEq, Repr

/-- The kinds and names on the way from a key up to its root, leaf first. -/
def Key.path : Key → List (String × String)
  | .nil => []
  | .NameKey k n p => (k, n) :: p.path

/-- The root of a key's ancestor chain (nil for the nil pointer). -/
def Key.root : Key → Key
  | .nil => .nil
  | .NameKey k n .nil => .NameKey k n .nil
  | .NameKey _ _ p => p.root

/-- The parent pointer of a key (nil for the nil pointer, which has none). -/
def Key.parentOf : Key → Key
  | .nil => .nil
  | .NameKey _ _ p => p

/-! ## Configuration -/

/-- The injected configuration values the code reads: the five name markers
(`GetSitzungType` ... `GetAnlageDocumentType`) and the three entity kinds
(`GetEntitySitzung`, `GetEntityVorlage`, `GetEntityTop`). -/
structure Config where
  SitzungType : String
  VorlageType : String
  TopType : String
  AnlageType : String
  AnlageDocumentType : String
  EntitySitzung : String
  EntityVorlage : String
  EntityTop : String

/-! ## Key resolution -/

/-- Go `createKey`: strip `prefix-`, cut the rest at the first `-` into the
own id and the rest path; `splitted[1]` panics when there is no `-`. -/
def createKey (name entity pre : String) (parentKey : Key) : Outcome (String × Key) :=
  let trimmed := strings.TrimPrefix name (pre ++ "-")
  let splitted := strings.SplitN trimmed '-' 2
  match splitted with
  | s0 :: s1 :: _ => .ret (s1, Key.NameKey entity s0 parentKey)
  | _ => .panic .indexOutOfRange

/-- Go `createDocumentKey`, with a budget for the depth of the recursion.
In the last branch nothing is assigned, so the recursive call gets the zero
values: the empty rest path and the nil key. -/
def createDocumentKey (cfg : Config) : Nat → String → Key → Outcome Key
  | 0, _, _ => .diverge
  | fuel + 1, name, parentKey =>
    if strings.HasPrefix name cfg.SitzungType then
      match createKey name "Sitzung" cfg.SitzungType parentKey with
      | .ret (restpath, key) => createDocumentKey cfg fuel restpath key
      | .panic p => .panic p
      | .diverge => .diverge
    else if strings.HasPrefix name cfg.VorlageType then
      match createKey name "Vorlage" cfg.VorlageType parentKey with
      | .ret (restpath, key) => createDocumentKey cfg fuel restpath key
      | .panic p => .panic p
      | .diverge => .diverge
    else if strings.HasPrefix name cfg.TopType then
      match createKey name "Top" cfg.TopType parentKey with
      | .ret (restpath, key) => createDocumentKey cfg fuel restpath key
      | .panic p => .panic p
      | .diverge => .diverge
    else if strings.HasPrefix name cfg.AnlageType then
      let trimmed := strings.TrimPrefix name (cfg.AnlageType ++ "-")
      .ret (Key.NameKey "Anlage" trimmed parentKey)
    else if strings.HasPrefix name cfg.AnlageDocumentType then
      match createKey name "BasisAnlage" cfg.AnlageDocumentType parentKey with
      | .ret (_, key) => .ret key
      | .panic p => .panic p
      | .diverge => .diverge
    else
      createDocumentKey cfg fuel "" Key.nil

/-- An example configuration: the markers `S`, `V`, `TOP`, `A`, `BA`. -/
def exampleConfig : Config where
  SitzungType := "S"
  VorlageType := "V"
  TopType := "TOP"
  AnlageType := "A"
  AnlageDocumentType := "BA"
  EntitySitzung := "Sitzung"
  EntityVorlage := "Vorlage"
  EntityTop := "Top"

/-! ## Vocabulary for names built from segments -/

/-- The three markers after which `createDocumentKey` recurses. -/
inductive Marker where
  | sitzung
  | vorlage
  | top
  deriving DecidableEq, Repr

/-- The configured marker string of a marker. -/
def Marker.text (cfg : Config) : Marker → String
  | .sitzung => cfg.SitzungType
  | .vorlage => cfg.VorlageType
  | .top => cfg.TopType

/-- The key kind `createDocumentKey` gives a segment of a marker. -/
def Marker.kind : Marker → String
  | .sitzung => "Sitzung"
  | .vorlage => "Vorlage"
  | .top => "Top"

/-- The position of a marker in the order `createDocumentKey` tests them. -/
def Marker.position : Marker → Nat
  | .sitzung => 0
  | .vorlage => 1
  | .top => 2

/-- The position, in test order, of the first of the five markers that is a
prefix of the name; none when no marker is. -/
def firstMarker (cfg : Config) (name : String) : Option Nat :=
  if strings.HasPrefix name cfg.SitzungType then some 0
  else if strings.HasPrefix name cfg.VorlageType then some 1
  else if strings.HasPrefix name cfg.TopType then some 2
  else if strings.HasPrefix name cfg.AnlageType then some 3
  else if strings.HasPrefix name cfg.AnlageDocumentType then some 4
  else none

/-- The name `M1-id1-...-Mn-idn-A-r` of the segments `(Mi, idi)` followed by
the attachment marker and the remainder `r`. -/
def segmentName (cfg : Config) : List (Marker × String) → String → String
  | [], r => cfg.AnlageType ++ "-" ++ r
  | (m, id) :: segs, r => m.text cfg ++ "-" ++ id ++ "-" ++ segmentName cfg segs r

/-- The key chain of the segments above the parent `p`: the first segment is
the child of `p`, the last segment is the innermost key. -/
def segmentChain : List (Marker × String) → Key → Key
  | [], p => p
  | (m, id) :: segs, p => segmentChain segs (Key.NameKey m.kind id p)

/-- At every stage of the decomposition the first marker, in test order, that
prefixes the remaining string is the intended one. -/
def staged (cfg : Config) : List (Marker × String) → String → Bool
  | [], r => firstMarker cfg (segmentName cfg [] r) == some 3
  | (m, id) :: segs, r =>
    (firstMarker cfg (segmentName cfg ((m, id) :: segs) r) == some m.position)
      && staged cfg segs r

/-- No id of the segments contains a hyphen. -/
def hyphenFree (segs : List (Marker × String)) : Bool :=
  segs.all (fun s => !s.2.data.contains '-')

/-! ## Search records -/

/-- Go `SearchPage`. -/
structure SearchPage where
  Seite : Int
  Text : String
  deriving DecidableEq, Repr

/-- Go `SearchParent`: one chunk group. -/
structure SearchParent where
  Pages : List SearchPage
  deriving DecidableEq, Repr

/-! ## OCR results and their enumeration -/

/-- Modelled from the spec: the `FullTextAnnotation` of one OCR response (type
of package `ocr`, not in the repository); `Text` is the field `processPage`
reads. -/
structure FullTextAnnotation where
  Text : String
  deriving DecidableEq, Repr

/-- Modelled from the spec: the `Context` of one OCR response (type of package
`ocr`, not in the repository); `PageNumber` is the field `processPage` reads. -/
structure OcrContext where
  PageNumber : Int
  deriving DecidableEq, Repr

/-- Modelled from the spec: one per-page OCR response (type of package `ocr`,
not in the repository). -/
structure OcrResponse where
  FullTextAnnotation : FullTextAnnotation
  Context : OcrContext
  deriving DecidableEq, Repr

/-- Modelled from the spec: the value `ocr.ReadOcrFromFile` yields for one
object (type of package `ocr`, not in the repository). -/
structure JsonOcr where
  Responses : List OcrResponse
  deriving DecidableEq, Repr

/-- One object of the bucket listing together with what `ocr.ReadOcrFromFile`
returned for it: the value and the error.  `processPage` logs the error and
goes on with the value. -/
structure OcrObject where
  Name : String
  jsonOcr : JsonOcr
  err : Option Error
  deriving DecidableEq, Repr

/-- What the object iterator yields for a prefix: the objects in enumeration
order, then `iterator.Done` (no error) or an error. -/
structure Listing where
  objects : List OcrObject
  err : Option Error
  deriving DecidableEq, Repr

/-- The page `processPage` appends for a response. -/
def pageOf (resp : OcrResponse) : SearchPage :=
  { Text := resp.FullTextAnnotation.Text, Seite := resp.Context.PageNumber }

/-- All responses of the listed objects, in enumeration order: the page
sequence `processPage` sees. -/
def responsesOf (objects : List OcrObject) : List OcrResponse :=
  (objects.map (fun o => o.jsonOcr.Responses)).flatten

/-! ## Page chunking -/

/-- Go `countBytesSearchParent`: 0 for the nil pointer, else the sum of the
byte lengths of the page texts. -/
def countBytesSearchParent (p : Option SearchParent) : Nat :=
  match p with
  | none => 0
  | some p => p.Pages.foldl (fun count pg => count + len pg.Text) 0

/-- The variables of the loop of `processPage`.  `lastElem` points to the last
entry of the Go slice `elems`, so the slice is `elems ++ [lastElem]` here:
`elems` holds the groups before the current one. -/
structure ChunkState where
  totalPages : Nat
  elems : List SearchParent
  lastElem : SearchParent
  lastPCount : Nat
  deriving DecidableEq, Repr

/-- The body of the inner loop of `processPage` for one response. -/
def addResponse (st : ChunkState) (resp : OcrResponse) : ChunkState :=
  let countBytes := len resp.FullTextAnnotation.Text
  let lastPCount := st.lastPCount + countBytes
  let st1 : ChunkState :=
    if lastPCount > 10500 then
      { st with elems := st.elems ++ [st.lastElem], lastElem := { Pages := [] }, lastPCount := 0 }
    else
      { st with lastPCount := lastPCount }
  { st1 with lastElem := { Pages := st1.lastElem.Pages ++ [pageOf resp] } }

/-- The body of the outer loop of `processPage` for one listed object. -/
def addObject (st : ChunkState) (o : OcrObject) : ChunkState :=
  let st1 := o.jsonOcr.Responses.foldl addResponse st
  { st1 with totalPages := st1.totalPages + o.jsonOcr.Responses.length }

/-- The outer loop of `processPage`: the objects in order, then the end of
the iteration, `iterator.Done` or an error. -/
def processLoop (st : ChunkState) : List OcrObject → Option Error →
    Nat × List SearchParent × Option Error
  | [], none => (st.totalPages, st.elems ++ [st.lastElem], none)
  | [], some e => (0, [], some e)
  | o :: os, fin => processLoop (addObject st o) os fin

/-- Go `processPage`, on the listing the bucket gives for the document. -/
def processPage (it : Listing) : Nat × List SearchParent × Option Error :=
  let lastElem : SearchParent := { Pages := [] }
  let lastPCount := countBytesSearchParent (some lastElem)
  processLoop { totalPages := 0, elems := [], lastElem := lastElem, lastPCount := lastPCount }
    it.objects it.err

/-- A text of `n` bytes. -/
def textOfSize (n : Nat) : String := String.mk (List.replicate n 'a')

/-- A response with page number `i` and a text of `n` bytes. -/
def responseOfSize (i : Int) (n : Nat) : OcrResponse :=
  { FullTextAnnotation := { Text := textOfSize n }, Context := { PageNumber := i } }

/-- The state of the loop before the first page. -/
def initialState : ChunkState :=
  { totalPages := 0, elems := [], lastElem := { Pages := [] },
    lastPCount := countBytesSearchParent (some { Pages := [] }) }

/-- The Go slice `elems` of a loop state: the earlier groups and the current
one. -/
def ChunkState.groups (st : ChunkState) : List SearchParent := st.elems ++ [st.lastElem]

/-- The groups the loop of `processPage` builds from a page sequence. -/
def chunkGroups (rs : List OcrResponse) : List SearchParent :=
  (rs.foldl addResponse initialState).groups

/-- The pages of a list of groups, in group order. -/
def pagesOf (gs : List SearchParent) : List SearchPage :=
  (gs.map (fun g => g.Pages)).flatten

/-- The byte length of the texts of a list of pages. -/
def bytesOf (ps : List SearchPage) : Nat := (ps.map (fun pg => len pg.Text)).sum

/-- What the loop of `processPage` keeps true: the counter is at most 10,500
and bounds the bytes of the current group after its first page, and every
earlier group has at most 10,500 bytes after its first page. -/
def ChunkState.bounded (st : ChunkState) : Prop :=
  (∀ g ∈ st.elems, bytesOf g.Pages.tail ≤ 10500)
    ∧ st.lastPCount ≤ 10500 ∧ bytesOf st.lastElem.Pages.tail ≤ st.lastPCount

/-! ## Hierarchy records and the record store -/

/-- Modelled from the spec: a `time.Time` (standard library); the code reads
only its `Unix()` seconds. -/
structure Time where
  Unix : Int
  deriving DecidableEq, Repr

/-- Modelled from the spec: the session record `db.Sitzung` (package
`allris-db`, not in the repository), with the fields the code reads. -/
structure Sitzung where
  Title : String
  Datum : Time
  SILFDNR : Int
  Gremium : String
  deriving DecidableEq, Repr

/-- Modelled from the spec: the submission record `db.Vorlage` (package
`allris-db`, not in the repository), with the fields the code reads. -/
structure Vorlage where
  Betreff : String
  DatumAngelegt : Time
  VOLFDNR : Int
  Federfuehrend : String
  deriving DecidableEq, Repr

/-- Modelled from the spec: the agenda-item record `db.Top` (package
`allris-db`, not in the repository), with the fields the code reads. -/
structure Top where
  Status : String
  Typ : String
  BSVV : String
  Datum : Time
  SILFDNR : Int
  Beschlussart : String
  Gremium : String
  TOLFDNR : Int
  Betreff : String
  Nr : String
  Federfuehrend : String
  VOLFDNR : Int
  deriving DecidableEq, Repr

/-- Modelled from the spec: the attachment record `db.Anlage` (package
`allris-db`, not in the repository), with the field the code reads. -/
structure Anlage where
  Title : String
  deriving DecidableEq, Repr

/-- A datastore query as the code builds it: `NewQuery(kind).Filter(filter,
value)`. -/
structure Query where
  kind : String
  filter : String
  value : Int
  deriving DecidableEq, Repr

/-- The record store as the code uses it: `Get` by key into a record of each
of the four types, `GetAll` for a query, and `Encode` of a key. -/
structure Db where
  GetSitzung : Key → Except Error Sitzung
  GetVorlage : Key → Except Error Vorlage
  GetTop : Key → Except Error Top
  GetAnlage : Key → Except Error Anlage
  GetAll : Query → Except Error (List Top)
  Encode : Key → String

/-- Go `SearchEntity`. -/
structure SearchEntity where
  Title : String
  Datum : Int
  SubTitle : String
  KeyEnc : String
  Kind : String
  Name : String
  deriving DecidableEq, Repr

/-- Go `SearchDocument`. -/
structure SearchDocument where
  Title : String
  Datum : Int
  KeyEnc : String
  Kind : String
  Name : String
  Filename : String
  deriving DecidableEq, Repr

/-- Go `SearchBeratung`. -/
structure SearchBeratung where
  Status : String
  Typ : String
  BSVV : String
  Datum : Int
  SILFDNR : Int
  Beschlussart : String
  Gremium : String
  TOLFDNR : Int
  Betreff : String
  Bearbeiter : String
  Federfuehrend : String
  VOLFDNR : Int
  Oeff : String
  deriving DecidableEq, Repr

/-- Go `SearchElem`. -/
structure SearchElem where
  Pages : List SearchPage
  Document : SearchDocument
  Parent : SearchEntity
  Beratungen : List SearchBeratung
  TotalPages : Nat
  deriving DecidableEq, Repr

/-- The zero value of `SearchEntity`. -/
def SearchEntity.zero : SearchEntity :=
  { Title := "", Datum := 0, SubTitle := "", KeyEnc := "", Kind := "", Name := "" }

/-- The zero value of `SearchElem`. -/
def SearchElem.zero : SearchElem :=
  { Pages := [], TotalPages := 0, Parent := SearchEntity.zero, Beratungen := [],
    Document := { Title := "", Datum := 0, KeyEnc := "", Kind := "", Name := "", Filename := "" } }

/-- The application context as the code uses it: the configuration, the
record store, and the listing of the OCR bucket for a name prefix, each object
with what `ocr.ReadOcrFromFile` returned for it. -/
structure AppContext where
  Config : Config
  Db : Db
  Objects : String → Listing

/-- Go `Index`, the search index: for each call the error it answers with
(none for success). -/
structure Index where
  DeleteBy : String → Option Error
  SaveObjects : List SearchElem → Bool → Option Error

/-- Go `SearchContext`. -/
structure SearchContext where
  appContext : AppContext
  SearchIndex : Index

/-- A call made to the search index. -/
inductive IndexCall where
  | DeleteBy (option : String)
  | SaveObjects (elems : List SearchElem) (exist : Bool)
  deriving DecidableEq, Repr

/-! ## Enrichment -/

/-- The `SearchBeratung` that the loop of `getEntityBeratungen` appends for
one related record; the fields the literal does not set keep their zero
value. -/
def beratungOf (beratung : Top) : SearchBeratung :=
  { VOLFDNR := beratung.VOLFDNR
    Federfuehrend := beratung.Federfuehrend
    Datum := beratung.Datum.Unix
    Beschlussart := beratung.Beschlussart
    Typ := beratung.Typ
    BSVV := beratung.BSVV
    TOLFDNR := beratung.TOLFDNR
    Gremium := beratung.Gremium
    SILFDNR := beratung.SILFDNR
    Status := beratung.Status
    Betreff := ""
    Bearbeiter := ""
    Oeff := "" }

/-- The three branches of `getEntityBeratungen` on the kind of the parent key:
the error of a failed `Get`, or the query and the entity.  When no branch is
taken the query stays nil and the entity zero. -/
def entityAndQuery (sctx : SearchContext) (parentKey : Key) (kind : String) (parent : Key) :
    Except Error (Option Query × SearchEntity) :=
  let cfg := sctx.appContext.Config
  let db := sctx.appContext.Db
  if kind = cfg.EntitySitzung then
    match db.GetSitzung parentKey with
    | .error err => .error err
    | .ok sitzung =>
      .ok (some { kind := cfg.EntityTop, filter := "SILFDNR =", value := sitzung.SILFDNR },
        { Title := sitzung.Title
          Datum := sitzung.Datum.Unix
          Name := toString sitzung.SILFDNR
          Kind := cfg.EntitySitzung
          KeyEnc := db.Encode parentKey
          SubTitle := sitzung.Gremium })
  else if kind = cfg.EntityVorlage then
    match db.GetVorlage parentKey with
    | .error err => .error err
    | .ok vorlage =>
      .ok (some { kind := cfg.EntityTop, filter := "VOLFDNR =", value := vorlage.VOLFDNR },
        { Title := vorlage.Betreff
          Datum := vorlage.DatumAngelegt.Unix
          Name := toString vorlage.VOLFDNR
          Kind := cfg.EntityVorlage
          KeyEnc := db.Encode parentKey
          SubTitle := vorlage.Federfuehrend })
  else if kind = cfg.EntityTop then
    match db.GetTop parentKey with
    | .error err => .error err
    | .ok top =>
      match db.GetSitzung parent with
      | .error err => .error err
      | .ok sitzung =>
        .ok (some { kind := cfg.EntityTop, filter := "TOLFDNR =", value := top.TOLFDNR },
          { Title := top.Betreff ++ " (" ++ top.Nr ++ ": " ++ sitzung.Title ++ ")"
            Datum := top.Datum.Unix
            Name := toString top.TOLFDNR
            Kind := cfg.EntityTop
            KeyEnc := db.Encode parentKey
            SubTitle := top.Federfuehrend ++ " | " ++ sitzung.Gremium })
  else .ok (none, SearchEntity.zero)

/-- Go `getEntityBeratungen`.  Reading `parentKey.Kind` of the nil key panics,
and so does `GetAll` with the nil query, which the datastore client
dereferences. -/
def getEntityBeratungen (sctx : SearchContext) (parentKey : Key) :
    Outcome (SearchEntity × List SearchBeratung × Option Error) :=
  match parentKey with
  | .nil => .panic .nilDereference
  | .NameKey kind _ parent =>
    match entityAndQuery sctx parentKey kind parent with
    | .error err => .ret (SearchEntity.zero, [], some err)
    | .ok (none, _) => .panic .nilDereference
    | .ok (some query, entity) =>
      match sctx.appContext.Db.GetAll query with
      | .error err => .ret (entity, [], some err)
      | .ok beratungen => .ret (entity, beratungen.map beratungOf, none)

/-! ## The indexing pipeline -/

/-- Go `prepareSearchElem`, with the recursion budget of `createDocumentKey`. -/
def prepareSearchElem (sctx : SearchContext) (fuel : Nat) (elem : SearchParent)
    (documentName : String) (totalPages : Nat) : Outcome (SearchElem × Option Error) :=
  match createDocumentKey sctx.appContext.Config fuel (filepath.Base documentName) Key.nil with
  | .panic p => .panic p
  | .diverge => .diverge
  | .ret documentKey =>
    match documentKey with
    | .nil => .panic .nilDereference
    | .NameKey kind name parent =>
      match getEntityBeratungen sctx parent with
      | .panic p => .panic p
      | .diverge => .diverge
      | .ret (_, _, some err) => .ret (SearchElem.zero, some err)
      | .ret (entity, beratungen, none) =>
        match sctx.appContext.Db.GetAnlage documentKey with
        | .error err => .ret (SearchElem.zero, some err)
        | .ok anlage =>
          .ret ({ Pages := elem.Pages
                  TotalPages := totalPages
                  Parent := entity
                  Document :=
                    { Title := anlage.Title
                      Datum := 0
                      KeyEnc := sctx.appContext.Db.Encode documentKey
                      Kind := kind
                      Name := name
                      Filename := documentName }
                  Beratungen := beratungen }, none)

/-- The loop of `createEntitiesInSearch` over the page groups: the search
elements gathered so far, and the error that ended the loop, if any. -/
def prepareLoop (sctx : SearchContext) (fuel : Nat) (documentName : String) (totalPages : Nat) :
    List SearchParent → List SearchElem → Outcome (List SearchElem × Option Error)
  | [], searchElems => .ret (searchElems, none)
  | pe :: rest, searchElems =>
    match prepareSearchElem sctx fuel pe documentName totalPages with
    | .panic p => .panic p
    | .diverge => .diverge
    | .ret (_, some err) => .ret (searchElems, some err)
    | .ret (result, none) =>
      prepareLoop sctx fuel documentName totalPages rest (searchElems ++ [result])

/-- The filter string `deleteOldEntitiesInSearch` formats for a document. -/
def deleteFilter (documentName : String) : String :=
  "Document.Name:\"" ++ documentName ++ "\""

/-- Go `deleteOldEntitiesInSearch`: the index calls made and the error
returned. -/
def deleteOldEntitiesInSearch (sctx : SearchContext) (documentName : String) :
    List IndexCall × Option Error :=
  ([IndexCall.DeleteBy (deleteFilter documentName)],
    sctx.SearchIndex.DeleteBy (deleteFilter documentName))

/-- Go `createEntitiesInSearch`: the index calls made and how the call ends. -/
def createEntitiesInSearch (sctx : SearchContext) (fuel : Nat) (documentName : String) :
    List IndexCall × Outcome (Option Error) :=
  match processPage (sctx.appContext.Objects documentName) with
  | (_, _, some err) => ([], .ret (some err))
  | (totalPages, pageelems, none) =>
    match prepareLoop sctx fuel documentName totalPages pageelems [] with
    | .panic p => ([], .panic p)
    | .diverge => ([], .diverge)
    | .ret (_, some err) => ([], .ret (some err))
    | .ret (searchElems, none) =>
      ([IndexCall.SaveObjects searchElems true],
        .ret (sctx.SearchIndex.SaveObjects searchElems true))

/-- Go `UpdateSearchForDocument`: the index calls made, in order, and how the
call ends. -/
def UpdateSearchForDocument (sctx : SearchContext) (fuel : Nat) (documentName : String) :
    List IndexCall × Outcome (Option Error) :=
  match deleteOldEntitiesInSearch sctx documentName with
  | (calls, some err) => (calls, .ret (some err))
  | (calls, none) =>
    match createEntitiesInSearch sctx fuel documentName with
    | (more, r) => (calls ++ more, r)

/-! ## The delete filter of the search index -/

/-- The string attributes of the document part of an indexed record, under
the paths its serialisation gives them. -/
def documentAttributes (e : SearchElem) : List (String × String) :=
  [("Document.Title", e.Document.Title),
   ("Document.KeyEnc", e.Document.KeyEnc),
   ("Document.Kind", e.Document.Kind),
   ("Document.Name", e.Document.Name),
   ("Document.Filename", e.Document.Filename)]

/-- Modelled from the spec: the search index service (not in the repository)
matches a record against a filter of the form `attribute:"value"` when the
record's attribute of that path equals the value. -/
def satisfiesFilter (e : SearchElem) (filter : String) : Bool :=
  (documentAttributes e).any (fun av => filter == av.1 ++ ":\"" ++ av.2 ++ "\"")

/-! ## An example context -/

/-- An example record store: every `Get` and `GetAll` succeeds with a fixed
record. -/
def exampleDb : Db where
  GetSitzung := fun _ =>
    .ok { Title := "Rat", Datum := { Unix := 1700000000 }, SILFDNR := 1, Gremium := "Stadtrat" }
  GetVorlage := fun _ =>
    .ok { Betreff := "Haushalt", DatumAngelegt := { Unix := 1700000000 }, VOLFDNR := 77,
          Federfuehrend := "Amt 20" }
  GetTop := fun _ =>
    .ok { Status := "oeffentlich", Typ := "Beschluss", BSVV := "BV", Datum := { Unix := 1700000000 },
          SILFDNR := 1, Beschlussart := "einstimmig", Gremium := "Stadtrat", TOLFDNR := 3,
          Betreff := "Haushalt", Nr := "5", Federfuehrend := "Amt 20", VOLFDNR := 77 }
  GetAnlage := fun _ => .ok { Title := "Anlage 1" }
  GetAll := fun _ =>
    .ok [{ Status := "oeffentlich", Typ := "Beschluss", BSVV := "BV", Datum := { Unix := 1700000000 },
           SILFDNR := 1, Beschlussart := "einstimmig", Gremium := "Stadtrat", TOLFDNR := 3,
           Betreff := "Haushalt", Nr := "5", Federfuehrend := "Amt 20", VOLFDNR := 77 }]
  Encode := fun k => String.intercalate "/" (k.path.reverse.map (fun kn => kn.1 ++ ":" ++ kn.2))

/-- An example context: the example configuration and record store, a bucket
with no OCR object, and an index whose calls succeed. -/
def exampleContext : SearchContext where
  appContext := { Config := exampleConfig, Db := exampleDb,
                  Objects := fun _ => { objects := [], err := none } }
  SearchIndex := { DeleteBy := fun _ => none, SaveObjects := fun _ _ => none }

/-! # Theorems -/

/-! ## Lemmas on the string functions -/

theorem strings.hasPrefix_append (p s : String) : strings.HasPrefix (p ++ s) p = true := by
  simp [strings.HasPrefix, String.data_append]

theorem strings.trimPrefix_append (p s : String) : strings.TrimPrefix (p ++ s) p = s := by
  simp [strings.TrimPrefix, strings.hasPrefix_append, String.data_append]

theorem strings.hasPrefix_empty_of_not (name m : String)
    (h : strings.HasPrefix name m = false) : strings.HasPrefix "" m = false := by
  unfold strings.HasPrefix at *
  cases hm : m.data with
  | nil => simp [hm] at h
  | cons c cs => rfl

theorem strings.span_hyphen (a b : List Char) (h : a.contains '-' = false) :
    (a ++ '-' :: b).span (fun c => c != '-') = (a, '-' :: b) := by
  induction a with
  | nil => simp [List.span, List.span.loop]
  | cons c cs ih =>
    simp only [List.contains_cons, Bool.or_eq_false_iff] at h
    have hc : (c != '-') = true := by
      have := h.1
      simp only [beq_eq_false_iff_ne, ne_eq] at this
      simp only [bne_iff_ne, ne_eq]
      exact fun e => this e.symm
    have ih2 := ih h.2
    simp only [List.span_eq_take_drop, List.cons_append] at ih2 ⊢
    simp only [List.takeWhile_cons, List.dropWhile_cons, hc, if_true]
    rw [Prod.mk.injEq] at ih2 ⊢
    exact ⟨by rw [ih2.1], ih2.2⟩

theorem strings.splitN_two (a b : String) (h : a.data.contains '-' = false) :
    strings.SplitN (a ++ "-" ++ b) '-' 2 = [a, b] := by
  have hd : (a ++ "-" ++ b).data = a.data ++ '-' :: b.data := by
    simp [String.data_append]
  simp only [strings.SplitN, strings.splitLoop, hd, strings.span_hyphen _ _ h]
  simp [strings.splitLoop]

theorem strings.span_length (l a rest : List Char)
    (h : l.span (fun c => c != '-') = (a, rest)) : a.length + rest.length = l.length := by
  rw [List.span_eq_take_drop] at h
  have := List.takeWhile_append_dropWhile (fun c => c != '-') l
  simp only [Prod.mk.injEq] at h
  rw [← h.1, ← h.2, ← List.length_append, this]

theorem strings.span_no_hyphen (l : List Char) (h : l.contains '-' = false) :
    l.span (fun c => c != '-') = (l, []) := by
  rw [List.span_eq_take_drop]
  have : ∀ c ∈ l, (c != '-') = true := by
    intro c hc
    simp only [bne_iff_ne, ne_eq]
    intro e
    subst e
    simp at h
    exact h hc
  rw [List.takeWhile_eq_self_iff.mpr this, List.dropWhile_eq_nil_iff.mpr this]

theorem strings.trimPrefix_length (s pre : String) :
    (strings.TrimPrefix s pre).data.length ≤ s.data.length := by
  unfold strings.TrimPrefix
  split_ifs
  · simp
  · exact Nat.le_refl _

theorem strings.trimPrefix_no_hyphen (s pre : String) (h : s.data.contains '-' = false) :
    (strings.TrimPrefix s pre).data.contains '-' = false := by
  unfold strings.TrimPrefix
  split_ifs
  · simp only [List.contains_eq_any_beq, List.any_eq_false, beq_iff_eq] at h ⊢
    intro c hc
    exact h c (List.mem_of_mem_drop hc)
  · exact h

theorem filepath.base_length (path : String) (h : path.data ≠ []) :
    (filepath.Base path).data.length ≤ path.data.length := by
  simp only [filepath.Base, h, if_false]
  split_ifs with hl
  · cases hp : path.data with
    | nil => exact absurd hp h
    | cons c cs => simp
  · simp only [List.length_reverse]
    calc (List.takeWhile (fun c => c != '/')
            (path.data.reverse.dropWhile (fun c => c == '/')).reverse.reverse).length
        ≤ ((path.data.reverse.dropWhile (fun c => c == '/')).reverse.reverse).length :=
          (List.takeWhile_sublist _).length_le
      _ = (path.data.reverse.dropWhile (fun c => c == '/')).length := by simp
      _ ≤ path.data.reverse.length := (List.dropWhile_sublist _).length_le
      _ = path.data.length := by simp

theorem createKey_ret (name entity pre : String) (p : Key) (rest : String) (key : Key)
    (h : createKey name entity pre p = .ret (rest, key)) :
    ∃ s0, key = Key.NameKey entity s0 p ∧ s0.data.length ≤ name.data.length
      ∧ rest.data.length < name.data.length := by
  have ht := strings.trimPrefix_length name (pre ++ "-")
  simp only [createKey, strings.SplitN, strings.splitLoop] at h
  generalize strings.TrimPrefix name (pre ++ "-") = trimmed at h ht
  have hs := strings.span_length trimmed.data
  revert h
  cases hsp : trimmed.data.span (fun c => c != '-') with
  | mk a rest' =>
    have hl := hs a rest' hsp
    cases rest' with
    | nil => simp
    | cons c b =>
      simp only [List.map_cons, List.map_nil, Outcome.ret.injEq, Prod.mk.injEq]
      rintro ⟨h1, h2⟩
      subst h1 h2
      refine ⟨String.mk a, rfl, ?_, ?_⟩
      · simp only [List.length_cons] at hl ⊢
        omega
      · simp only [List.length_cons] at hl ⊢
        omega

theorem createKey_no_hyphen (name entity pre : String) (p : Key)
    (h : name.data.contains '-' = false) :
    createKey name entity pre p = .panic Panic.indexOutOfRange := by
  have ht := strings.trimPrefix_no_hyphen name (pre ++ "-") h
  simp only [createKey, strings.SplitN, strings.splitLoop, strings.span_no_hyphen _ ht]
  rfl

theorem createKey_segment (m id rest entity : String) (p : Key)
    (h : id.data.contains '-' = false) :
    createKey (m ++ "-" ++ id ++ "-" ++ rest) entity m p
      = .ret (rest, Key.NameKey entity id p) := by
  have e : m ++ "-" ++ id ++ "-" ++ rest = (m ++ "-") ++ (id ++ "-" ++ rest) := by
    simp [String.append_assoc]
  simp only [createKey, e, strings.trimPrefix_append, strings.splitN_two _ _ h]

/-! ## Lemmas on key resolution -/

theorem createDocumentKey_empty_diverges (cfg : Config)
    (h1 : strings.HasPrefix "" cfg.SitzungType = false)
    (h2 : strings.HasPrefix "" cfg.VorlageType = false)
    (h3 : strings.HasPrefix "" cfg.TopType = false)
    (h4 : strings.HasPrefix "" cfg.AnlageType = false)
    (h5 : strings.HasPrefix "" cfg.AnlageDocumentType = false) (fuel : Nat) :
    createDocumentKey cfg fuel "" Key.nil = .diverge := by
  induction fuel with
  | zero => rfl
  | succ n ih => simp [createDocumentKey, h1, h2, h3, h4, h5, ih]

theorem createDocumentKey_diverges_of_no_marker (cfg : Config) (name : String) (p : Key)
    (h1 : strings.HasPrefix name cfg.SitzungType = false)
    (h2 : strings.HasPrefix name cfg.VorlageType = false)
    (h3 : strings.HasPrefix name cfg.TopType = false)
    (h4 : strings.HasPrefix name cfg.AnlageType = false)
    (h5 : strings.HasPrefix name cfg.AnlageDocumentType = false) (fuel : Nat) :
    createDocumentKey cfg fuel name p = .diverge := by
  cases fuel with
  | zero => rfl
  | succ n =>
    simp only [createDocumentKey, h1, h2, h3, h4, h5, Bool.false_eq_true, if_false]
    exact createDocumentKey_empty_diverges cfg
      (strings.hasPrefix_empty_of_not _ _ h1) (strings.hasPrefix_empty_of_not _ _ h2)
      (strings.hasPrefix_empty_of_not _ _ h3) (strings.hasPrefix_empty_of_not _ _ h4)
      (strings.hasPrefix_empty_of_not _ _ h5) n

theorem createDocumentKey_anlage (cfg : Config) (r : String) (p : Key) (k : Nat)
    (h : firstMarker cfg (cfg.AnlageType ++ "-" ++ r) = some 3) :
    createDocumentKey cfg (k + 1) (cfg.AnlageType ++ "-" ++ r) p
      = .ret (Key.NameKey "Anlage" r p) := by
  unfold firstMarker at h
  split_ifs at h with a1 a2 a3 a4 a5 <;> simp at h
  have e : cfg.AnlageType ++ "-" ++ r = (cfg.AnlageType ++ "-") ++ r := rfl
  simp only [createDocumentKey, a1, a2, a3, a4, Bool.false_eq_true, if_false, if_true]
  rw [e, strings.trimPrefix_append]

theorem createDocumentKey_step (cfg : Config) (m : Marker) (id rest : String) (p : Key)
    (fuel : Nat) (hid : id.data.contains '-' = false)
    (h : firstMarker cfg (m.text cfg ++ "-" ++ id ++ "-" ++ rest) = some m.position) :
    createDocumentKey cfg (fuel + 1) (m.text cfg ++ "-" ++ id ++ "-" ++ rest) p
      = createDocumentKey cfg fuel rest (Key.NameKey m.kind id p) := by
  unfold firstMarker at h
  cases m <;> simp only [Marker.text, Marker.position, Marker.kind] at h ⊢
  · split_ifs at h with a1 a2 a3 a4 a5 <;> simp at h
    simp only [createDocumentKey, a1, if_true, createKey_segment _ _ _ _ _ hid]
  · split_ifs at h with a1 a2 a3 a4 a5 <;> simp at h
    simp only [createDocumentKey, a1, a2, Bool.false_eq_true, if_false, if_true,
      createKey_segment _ _ _ _ _ hid]
  · split_ifs at h with a1 a2 a3 a4 a5 <;> simp at h
    simp only [createDocumentKey, a1, a2, a3, Bool.false_eq_true, if_false, if_true,
      createKey_segment _ _ _ _ _ hid]

theorem createDocumentKey_segments (cfg : Config) (segs : List (Marker × String))
    (r : String) (p : Key) (k : Nat)
    (hid : hyphenFree segs = true) (hst : staged cfg segs r = true) :
    createDocumentKey cfg (segs.length + 1 + k) (segmentName cfg segs r) p
      = .ret (Key.NameKey "Anlage" r (segmentChain segs p)) := by
  induction segs generalizing p with
  | nil =>
    simp only [staged, beq_iff_eq, segmentName] at hst
    simpa [segmentName, segmentChain, Nat.add_comm] using
      createDocumentKey_anlage cfg r p k hst
  | cons s segs ih =>
    obtain ⟨m, id⟩ := s
    simp only [hyphenFree, List.all_cons, Bool.and_eq_true, Bool.not_eq_true'] at hid
    simp only [staged, Bool.and_eq_true, beq_iff_eq, segmentName] at hst
    have e : (((m, id) :: segs).length + 1 + k) = (segs.length + 1 + k) + 1 := by
      simp only [List.length_cons]; omega
    rw [e, segmentName, createDocumentKey_step cfg m id _ p _ hid.1 hst.1]
    exact ih _ hid.2 hst.2

theorem createDocumentKey_ret_name (cfg : Config) (fuel : Nat) :
    ∀ (name : String) (p : Key) (kind n : String) (par : Key),
      createDocumentKey cfg fuel name p = .ret (Key.NameKey kind n par) →
      n.data.length ≤ name.data.length ∧ (par = p ∨ n.data.length < name.data.length) := by
  induction fuel with
  | zero => intro name p kind n par h; simp [createDocumentKey] at h
  | succ fuel ih =>
    intro name p kind n par h
    have step : ∀ entity pre : String,
        (match createKey name entity pre p with
          | .ret (restpath, key) => createDocumentKey cfg fuel restpath key
          | .panic q => .panic q
          | .diverge => .diverge) = .ret (Key.NameKey kind n par) →
        n.data.length ≤ name.data.length ∧ (par = p ∨ n.data.length < name.data.length) := by
      intro entity pre hm
      cases hk : createKey name entity pre p with
      | panic q => rw [hk] at hm; simp at hm
      | diverge => rw [hk] at hm; simp at hm
      | ret rk =>
        obtain ⟨rest, key⟩ := rk
        rw [hk] at hm
        obtain ⟨s0, _, _, hr⟩ := createKey_ret name entity pre p rest key hk
        have := ih rest key kind n par hm
        exact ⟨by omega, Or.inr (by omega)⟩
    simp only [createDocumentKey] at h
    split_ifs at h with a1 a2 a3 a4 a5
    · exact step _ _ h
    · exact step _ _ h
    · exact step _ _ h
    · simp only [Outcome.ret.injEq, Key.NameKey.injEq] at h
      obtain ⟨_, h2, h3⟩ := h
      subst h2 h3
      exact ⟨strings.trimPrefix_length _ _, Or.inl rfl⟩
    · cases hk : createKey name "BasisAnlage" cfg.AnlageDocumentType p with
      | panic q => rw [hk] at h; simp at h
      | diverge => rw [hk] at h; simp at h
      | ret rk =>
        obtain ⟨rest, key⟩ := rk
        rw [hk] at h
        obtain ⟨s0, hkey, hs0, _⟩ := createKey_ret name _ _ p rest key hk
        simp only [Outcome.ret.injEq] at h
        rw [hkey] at h
        simp only [Key.NameKey.injEq] at h
        obtain ⟨_, h2, h3⟩ := h
        subst h2 h3
        exact ⟨hs0, Or.inl rfl⟩
    · have hd := createDocumentKey_empty_diverges cfg
        (strings.hasPrefix_empty_of_not _ _ (by simpa using a1))
        (strings.hasPrefix_empty_of_not _ _ (by simpa using a2))
        (strings.hasPrefix_empty_of_not _ _ (by simpa using a3))
        (strings.hasPrefix_empty_of_not _ _ (by simpa using a4))
        (strings.hasPrefix_empty_of_not _ _ (by simpa using a5)) fuel
      rw [hd] at h
      simp at h

theorem createDocumentKey_no_hyphen (cfg : Config) (fuel : Nat) (name : String) (p : Key)
    (kind n : String) (par : Key) (hn : name.data.contains '-' = false)
    (h : createDocumentKey cfg fuel name p = .ret (Key.NameKey kind n par)) : par = p := by
  cases fuel with
  | zero => simp [createDocumentKey] at h
  | succ fuel =>
    simp only [createDocumentKey, createKey_no_hyphen _ _ _ _ hn] at h
    split_ifs at h with a1 a2 a3 a4 a5
    · simp only [Outcome.ret.injEq, Key.NameKey.injEq] at h
      exact h.2.2.symm
    · have hd := createDocumentKey_empty_diverges cfg
        (strings.hasPrefix_empty_of_not _ _ (by simpa using a1))
        (strings.hasPrefix_empty_of_not _ _ (by simpa using a2))
        (strings.hasPrefix_empty_of_not _ _ (by simpa using a3))
        (strings.hasPrefix_empty_of_not _ _ (by simpa using a4))
        (strings.hasPrefix_empty_of_not _ _ (by simpa using a5)) fuel
      rw [hd] at h
      simp at h

theorem segmentChain_path (segs : List (Marker × String)) (p : Key) :
    (segmentChain segs p).path = segs.reverse.map (fun s => (s.1.kind, s.2)) ++ p.path := by
  induction segs generalizing p with
  | nil => simp [segmentChain]
  | cons s segs ih =>
    obtain ⟨m, id⟩ := s
    simp [segmentChain, ih, Key.path]

/-! ## Lemmas on page chunking -/

theorem len_textOfSize (n : Nat) : len (textOfSize n) = n := by
  have h : ∀ l : List Char, (∀ c ∈ l, c = 'a') → String.utf8ByteSize.go l = l.length := by
    intro l
    induction l with
    | nil => intro _; rfl
    | cons c cs ih =>
      intro hc
      have hc1 : c = 'a' := hc c (List.mem_cons_self _ _)
      have h2 := ih (fun d hd => hc d (List.mem_cons_of_mem _ hd))
      simp only [String.utf8ByteSize.go, h2, List.length_cons, hc1]
      rfl
  have := h (List.replicate n 'a') (fun c hc => (List.mem_replicate.mp hc).2)
  simpa [len, textOfSize, String.utf8ByteSize] using this

theorem addResponse_totalPages (st : ChunkState) (r : OcrResponse) :
    (addResponse st r).totalPages = st.totalPages := by
  by_cases h : st.lastPCount + len r.FullTextAnnotation.Text > 10500 <;>
    simp [addResponse, h]

theorem addResponse_with_totalPages (st : ChunkState) (r : OcrResponse) (t : Nat) :
    addResponse { st with totalPages := t } r = { addResponse st r with totalPages := t } := by
  by_cases h : st.lastPCount + len r.FullTextAnnotation.Text > 10500 <;>
    simp [addResponse, h]

theorem foldl_addResponse_with_totalPages (rs : List OcrResponse) (st : ChunkState) (t : Nat) :
    rs.foldl addResponse { st with totalPages := t }
      = { rs.foldl addResponse st with totalPages := t } := by
  induction rs generalizing st with
  | nil => rfl
  | cons r rs ih =>
    simp only [List.foldl_cons, addResponse_with_totalPages]
    exact ih _

theorem foldl_addResponse_totalPages (rs : List OcrResponse) (st : ChunkState) :
    (rs.foldl addResponse st).totalPages = st.totalPages := by
  induction rs generalizing st with
  | nil => rfl
  | cons r rs ih => simp only [List.foldl_cons, ih, addResponse_totalPages]

theorem processLoop_done (objs : List OcrObject) (st : ChunkState) :
    processLoop st objs none
      = (st.totalPages + (responsesOf objs).length,
         ((responsesOf objs).foldl addResponse st).groups, none) := by
  induction objs generalizing st with
  | nil => simp [processLoop, responsesOf, ChunkState.groups]
  | cons o os ih =>
    have e : responsesOf (o :: os) = o.jsonOcr.Responses ++ responsesOf os := by
      simp [responsesOf]
    rw [processLoop, ih, e, List.foldl_append, List.length_append]
    simp only [addObject, foldl_addResponse_with_totalPages, foldl_addResponse_totalPages,
      ChunkState.groups, Nat.add_assoc]

theorem processPage_done (objs : List OcrObject) :
    processPage { objects := objs, err := none }
      = ((responsesOf objs).length, chunkGroups (responsesOf objs), none) := by
  simp only [processPage, processLoop_done, chunkGroups, initialState, Nat.zero_add]

theorem pagesOf_addResponse (st : ChunkState) (r : OcrResponse) :
    pagesOf (addResponse st r).groups = pagesOf st.groups ++ [pageOf r] := by
  by_cases h : st.lastPCount + len r.FullTextAnnotation.Text > 10500 <;>
    simp [addResponse, h, pagesOf, ChunkState.groups]

theorem pagesOf_foldl (rs : List OcrResponse) (st : ChunkState) :
    pagesOf (rs.foldl addResponse st).groups = pagesOf st.groups ++ rs.map pageOf := by
  induction rs generalizing st with
  | nil => simp
  | cons r rs ih => simp [List.foldl_cons, ih, pagesOf_addResponse]

theorem pagesOf_chunkGroups (rs : List OcrResponse) :
    pagesOf (chunkGroups rs) = rs.map pageOf := by
  rw [chunkGroups, pagesOf_foldl]
  simp [initialState, pagesOf, ChunkState.groups]

theorem sum_sizes_eq_length (gs : List SearchParent) :
    (gs.map (fun g => g.Pages.length)).sum = (pagesOf gs).length := by
  induction gs with
  | nil => rfl
  | cons g gs ih =>
    have e : pagesOf (g :: gs) = g.Pages ++ pagesOf gs := by simp [pagesOf]
    rw [e, List.length_append, ← ih]
    simp

theorem chunkGroups_ne_nil (rs : List OcrResponse) : chunkGroups rs ≠ [] := by
  simp [chunkGroups, ChunkState.groups]

theorem chunkGroups_two (r1 r2 : OcrResponse)
    (h1 : len r1.FullTextAnnotation.Text ≤ 10500)
    (h2 : 10500 < len r1.FullTextAnnotation.Text + len r2.FullTextAnnotation.Text) :
    chunkGroups [r1, r2] = [{ Pages := [pageOf r1] }, { Pages := [pageOf r2] }] := by
  have h1' : ¬ (len r1.FullTextAnnotation.Text > 10500) := by omega
  simp [chunkGroups, initialState, addResponse, countBytesSearchParent, ChunkState.groups,
    h1', h2]

theorem foldl_count (ps : List SearchPage) (a : Nat) :
    ps.foldl (fun count pg => count + len pg.Text) a = a + bytesOf ps := by
  induction ps generalizing a with
  | nil => simp [bytesOf]
  | cons q qs ih =>
    simp only [List.foldl_cons, ih, bytesOf, List.map_cons, List.sum_cons]
    omega

theorem countBytesSearchParent_eq (g : SearchParent) :
    countBytesSearchParent (some g) = bytesOf g.Pages := by
  simp [countBytesSearchParent, foldl_count]

theorem bytesOf_tail_append (ps : List SearchPage) (q : SearchPage) :
    bytesOf (ps ++ [q]).tail ≤ bytesOf ps.tail + len q.Text := by
  cases ps with
  | nil => simp [bytesOf]
  | cons a as => simp [bytesOf]

theorem addResponse_bounded (st : ChunkState) (r : OcrResponse) (h : st.bounded) :
    (addResponse st r).bounded := by
  obtain ⟨h1, h2, h3⟩ := h
  by_cases hc : st.lastPCount + len r.FullTextAnnotation.Text > 10500
  · simp only [addResponse, hc, if_true, ChunkState.bounded]
    refine ⟨?_, by omega, by simp [bytesOf]⟩
    intro g hg
    rcases List.mem_append.mp hg with hg | hg
    · exact h1 g hg
    · simp only [List.mem_singleton] at hg
      subst hg
      omega
  · simp only [addResponse, hc, if_false, ChunkState.bounded]
    refine ⟨h1, by omega, ?_⟩
    have := bytesOf_tail_append st.lastElem.Pages (pageOf r)
    simp only [pageOf] at this ⊢
    omega

theorem foldl_addResponse_bounded (rs : List OcrResponse) (st : ChunkState) (h : st.bounded) :
    (rs.foldl addResponse st).bounded := by
  induction rs generalizing st with
  | nil => exact h
  | cons r rs ih => exact ih _ (addResponse_bounded st r h)

/-- The size bound the loop of `processPage` does keep: in every group it
returns, the pages after the first have at most 10,500 bytes together. -/
theorem chunkGroups_bound (rs : List OcrResponse) (g : SearchParent)
    (hg : g ∈ chunkGroups rs) :
    countBytesSearchParent (some { Pages := g.Pages.tail }) ≤ 10500 := by
  have h0 : initialState.bounded := by
    simp [ChunkState.bounded, initialState, countBytesSearchParent, bytesOf]
  obtain ⟨h1, h2, h3⟩ := foldl_addResponse_bounded rs initialState h0
  rw [countBytesSearchParent_eq]
  show bytesOf g.Pages.tail ≤ 10500
  simp only [chunkGroups, ChunkState.groups] at hg
  rcases List.mem_append.mp hg with hg | hg
  · exact h1 g hg
  · simp only [List.mem_singleton] at hg
    subst hg
    omega

/-! ## Page chunking: the claims -/

/-- C1: for every listing read to its end whose page sequence has two pages,
the first of at most 10,500 bytes and the two together of more than 10,500
bytes, `processPage` returns exactly two groups, the first holding only page 1
and the second only page 2, and `totalPages = 2`. -/
theorem processPage_two_pages (objs : List OcrObject) (r1 r2 : OcrResponse)
    (h : responsesOf objs = [r1, r2])
    (h1 : len r1.FullTextAnnotation.Text ≤ 10500)
    (h2 : 10500 < len r1.FullTextAnnotation.Text + len r2.FullTextAnnotation.Text) :
    processPage { objects := objs, err := none }
      = (2, [{ Pages := [pageOf r1] }, { Pages := [pageOf r2] }], none) := by
  rw [processPage_done, h, chunkGroups_two r1 r2 h1 h2]
  rfl

/-- C1, at a concrete input: two pages of 6,000 bytes each, in one OCR
object. -/
theorem processPage_two_pages_witness :
    processPage { objects := [{ Name := "doc.pdf/output-1-to-2.json",
                                jsonOcr := { Responses := [responseOfSize 1 6000,
                                                           responseOfSize 2 6000] },
                                err := none }],
                  err := none }
      = (2, [{ Pages := [pageOf (responseOfSize 1 6000)] },
             { Pages := [pageOf (responseOfSize 2 6000)] }], none) :=
  processPage_two_pages _ (responseOfSize 1 6000) (responseOfSize 2 6000) rfl
    (by simp [responseOfSize, len_textOfSize]) (by simp [responseOfSize, len_textOfSize])

/-- C2: for every listing read to its end, `processPage` returns without
error a non-empty list of groups; and when the page sequence is empty (no OCR
object, or objects without responses) it returns exactly one group, with no
pages, and `totalPages = 0`. -/
theorem processPage_nonempty (objs : List OcrObject) :
    (∃ totalPages elems, processPage { objects := objs, err := none }
        = (totalPages, elems, none) ∧ elems ≠ [])
    ∧ (responsesOf objs = [] →
        processPage { objects := objs, err := none } = (0, [{ Pages := [] }], none)) := by
  refine ⟨⟨_, _, processPage_done objs, chunkGroups_ne_nil _⟩, ?_⟩
  intro h
  rw [processPage_done, h]
  rfl

/-- C2, at concrete inputs: no OCR object at all, and two objects without
responses (one of them unreadable). -/
theorem processPage_nonempty_witness :
    processPage { objects := [], err := none } = (0, [{ Pages := [] }], none)
    ∧ processPage { objects := [{ Name := "a.json", jsonOcr := { Responses := [] }, err := none },
                                { Name := "b.json", jsonOcr := { Responses := [] },
                                  err := some "unreadable" }],
                    err := none } = (0, [{ Pages := [] }], none) :=
  ⟨(processPage_nonempty []).2 rfl, (processPage_nonempty _).2 rfl⟩

/-- C3 (what the code does instead): three pages of 6,000 bytes each give the
groups `[page 1]` and `[page 2, page 3]`; the second group has two pages and
12,000 bytes, more than 10,500.  The page that opens a new group is not
counted: the counter is reset to 0 and the page appended afterwards. -/
theorem processPage_group_exceeds_threshold :
    processPage { objects := [{ Name := "doc.pdf/output-1-to-3.json",
                                jsonOcr := { Responses := [responseOfSize 1 6000,
                                                           responseOfSize 2 6000,
                                                           responseOfSize 3 6000] },
                                err := none }],
                  err := none }
      = (3, [{ Pages := [pageOf (responseOfSize 1 6000)] },
             { Pages := [pageOf (responseOfSize 2 6000), pageOf (responseOfSize 3 6000)] }],
         none)
    ∧ countBytesSearchParent
        (some { Pages := [pageOf (responseOfSize 2 6000), pageOf (responseOfSize 3 6000)] })
        = 12000 := by
  constructor
  · rw [processPage_done]
    simp [responsesOf, chunkGroups, initialState, addResponse, countBytesSearchParent,
      ChunkState.groups, responseOfSize, len_textOfSize]
  · simp [countBytesSearchParent, pageOf, responseOfSize, len_textOfSize]

/-- C4: for every listing read to its end, the pages of the groups that
`processPage` returns, concatenated in group order, are exactly the input
pages (text and page number) in enumeration order, and `totalPages` is the
number of input pages, which is the sum of the group sizes. -/
theorem processPage_preserves_pages (objs : List OcrObject) :
    ∃ elems, processPage { objects := objs, err := none }
        = ((responsesOf objs).length, elems, none)
      ∧ pagesOf elems = (responsesOf objs).map pageOf
      ∧ (elems.map (fun g => g.Pages.length)).sum = (responsesOf objs).length := by
  refine ⟨chunkGroups (responsesOf objs), processPage_done objs, pagesOf_chunkGroups _, ?_⟩
  rw [sum_sizes_eq_length, pagesOf_chunkGroups, List.length_map]

/-! ## Key resolution: the claims -/

/-- C10: for every parent key `p` and every name `M1-id1-...-Mn-idn-A-r`
(`n ≥ 0`) whose ids contain no hyphen and in which, at every stage, the first
marker in test order that prefixes the remaining string is the intended one,
`createDocumentKey` returns (for every recursion budget of at least `n + 1`
calls) the key of kind `Anlage` whose name is the whole remainder `r` and whose
parent is the chain of the segments above `p`; the ancestors of that chain are
the segments, innermost first, followed by the ancestors of `p`, so with
`p = nil` the chain ends at the first segment, which has no parent. -/
theorem createDocumentKey_attachment_chain (cfg : Config) (segs : List (Marker × String))
    (r : String) (p : Key) (k : Nat)
    (hid : hyphenFree segs = true) (hst : staged cfg segs r = true) :
    createDocumentKey cfg (segs.length + 1 + k) (segmentName cfg segs r) p
        = .ret (Key.NameKey "Anlage" r (segmentChain segs p))
      ∧ (segmentChain segs p).path
          = segs.reverse.map (fun s => (s.1.kind, s.2)) ++ p.path
      ∧ (p = Key.nil → (segmentChain segs p).root.parentOf = Key.nil
          ∧ (segmentChain segs p).path = segs.reverse.map (fun s => (s.1.kind, s.2))) := by
  refine ⟨createDocumentKey_segments cfg segs r p k hid hst, segmentChain_path segs p, ?_⟩
  intro hp
  subst hp
  refine ⟨?_, by simp [segmentChain_path, Key.path]⟩
  generalize segmentChain segs Key.nil = key
  induction key with
  | nil => rfl
  | NameKey kd n par ih =>
    cases par with
    | nil => rfl
    | NameKey kd2 n2 par2 => simpa [Key.root] using ih

/-- C10, at a concrete input: with the markers `S`, `V`, `TOP`, `A`, the name
`S-2024-TOP-3-A-doc-1.pdf` resolves to the attachment `doc-1.pdf` (hyphen
kept) under agenda item 3 under session 2024. -/
theorem createDocumentKey_attachment_chain_witness :
    createDocumentKey exampleConfig 3 "S-2024-TOP-3-A-doc-1.pdf" Key.nil
      = .ret (Key.NameKey "Anlage" "doc-1.pdf"
          (Key.NameKey "Top" "3" (Key.NameKey "Sitzung" "2024" Key.nil))) :=
  (createDocumentKey_attachment_chain exampleConfig
    [(Marker.sitzung, "2024"), (Marker.top, "3")] "doc-1.pdf" Key.nil 0
    (by decide) (by decide)).1

/-- C5 (as amended): for a name that encodes a session segment, then a
submission segment, then an agenda-item segment, each `marker-id-` with a
hyphen-free id, followed by an attachment segment `A-r`, and in which at every
stage the first matching marker is the intended one, `createDocumentKey(name,
nil)` returns the attachment key whose ancestors are the three-level chain
agenda item, submission, session carrying the three ids as names, and the root
of the chain, the session key, has no parent. -/
theorem createDocumentKey_three_levels (cfg : Config) (sid vid tid r : String) (k : Nat)
    (hid : hyphenFree [(Marker.sitzung, sid), (Marker.vorlage, vid), (Marker.top, tid)] = true)
    (hst : staged cfg [(Marker.sitzung, sid), (Marker.vorlage, vid), (Marker.top, tid)] r
      = true) :
    createDocumentKey cfg (4 + k)
        (cfg.SitzungType ++ "-" ++ sid ++ "-" ++ (cfg.VorlageType ++ "-" ++ vid ++ "-"
          ++ (cfg.TopType ++ "-" ++ tid ++ "-" ++ (cfg.AnlageType ++ "-" ++ r)))) Key.nil
      = .ret (Key.NameKey "Anlage" r (Key.NameKey "Top" tid (Key.NameKey "Vorlage" vid
          (Key.NameKey "Sitzung" sid Key.nil))))
    ∧ (Key.NameKey "Top" tid (Key.NameKey "Vorlage" vid
          (Key.NameKey "Sitzung" sid Key.nil))).root = Key.NameKey "Sitzung" sid Key.nil
    ∧ (Key.NameKey "Sitzung" sid Key.nil).parentOf = Key.nil := by
  refine ⟨?_, rfl, rfl⟩
  have h := createDocumentKey_segments cfg
    [(Marker.sitzung, sid), (Marker.vorlage, vid), (Marker.top, tid)] r Key.nil k hid hst
  simpa [segmentName, segmentChain, Marker.text, Marker.kind, Nat.add_comm] using h

/-- C5 (as amended), at a concrete input: with the markers `S`, `V`, `TOP`,
`A`, the name `S-2024-V-77-TOP-3-A-doc.pdf` resolves to the attachment
`doc.pdf` under agenda item 3, under submission 77, under session 2024. -/
theorem createDocumentKey_three_levels_witness :
    createDocumentKey exampleConfig 4 "S-2024-V-77-TOP-3-A-doc.pdf" Key.nil
      = .ret (Key.NameKey "Anlage" "doc.pdf" (Key.NameKey "Top" "3" (Key.NameKey "Vorlage" "77"
          (Key.NameKey "Sitzung" "2024" Key.nil)))) :=
  (createDocumentKey_three_levels exampleConfig "2024" "77" "3" "doc.pdf" 0
    (by decide) (by decide)).1

/-- C5 (as stated) fails: with the markers `S`, `V`, `TOP`, the name
`S-2024-12|V-77|TOP-3` never yields a key (after the session segment the rest
`12|V-77|TOP-3` starts with no marker), and the hyphen-joined name
`S-2024-V-77-TOP-3`, which ends in the agenda-item segment, never yields a
key either (the agenda-item id is followed by no hyphen, `createKey` panics). -/
theorem createDocumentKey_three_segments_no_key :
    (¬ ∃ fuel key, createDocumentKey exampleConfig fuel "S-2024-12|V-77|TOP-3" Key.nil
        = .ret key)
    ∧ (¬ ∃ fuel key, createDocumentKey exampleConfig fuel "S-2024-V-77-TOP-3" Key.nil
        = .ret key)
    ∧ createDocumentKey exampleConfig 3 "S-2024-V-77-TOP-3" Key.nil
        = .panic Panic.indexOutOfRange := by
  refine ⟨?_, ?_, by decide⟩
  · rintro ⟨fuel, key, h⟩
    cases fuel with
    | zero => simp [createDocumentKey] at h
    | succ n =>
      have e : createDocumentKey exampleConfig (n + 1) "S-2024-12|V-77|TOP-3" Key.nil
          = createDocumentKey exampleConfig n "12|V-77|TOP-3"
              (Key.NameKey "Sitzung" "2024" Key.nil) :=
        createDocumentKey_step exampleConfig Marker.sitzung "2024" "12|V-77|TOP-3" Key.nil n
          (by decide) (by decide)
      rw [e, createDocumentKey_diverges_of_no_marker exampleConfig _ _
        (by decide) (by decide) (by decide) (by decide) (by decide)] at h
      cases h
  · rintro ⟨fuel, key, h⟩
    have e1 : ∀ n, createDocumentKey exampleConfig (n + 1) "S-2024-V-77-TOP-3" Key.nil
          = createDocumentKey exampleConfig n "V-77-TOP-3"
              (Key.NameKey "Sitzung" "2024" Key.nil) := fun n =>
        createDocumentKey_step exampleConfig Marker.sitzung "2024" "V-77-TOP-3" Key.nil n
          (by decide) (by decide)
    have e2 : ∀ n, createDocumentKey exampleConfig (n + 1) "V-77-TOP-3"
            (Key.NameKey "Sitzung" "2024" Key.nil)
          = createDocumentKey exampleConfig n "TOP-3"
              (Key.NameKey "Vorlage" "77" (Key.NameKey "Sitzung" "2024" Key.nil)) := fun n =>
        createDocumentKey_step exampleConfig Marker.vorlage "77" "TOP-3" _ n
          (by decide) (by decide)
    have e3 : ∀ n, createDocumentKey exampleConfig (n + 1) "TOP-3"
            (Key.NameKey "Vorlage" "77" (Key.NameKey "Sitzung" "2024" Key.nil))
          = .panic Panic.indexOutOfRange := fun n => by
        have hp : createKey "TOP-3" "Top" exampleConfig.TopType
            (Key.NameKey "Vorlage" "77" (Key.NameKey "Sitzung" "2024" Key.nil))
            = .panic Panic.indexOutOfRange := by decide
        have a1 : strings.HasPrefix "TOP-3" exampleConfig.SitzungType = false := by decide
        have a2 : strings.HasPrefix "TOP-3" exampleConfig.VorlageType = false := by decide
        have a3 : strings.HasPrefix "TOP-3" exampleConfig.TopType = true := by decide
        simp only [createDocumentKey, a1, a2, a3, hp, Bool.false_eq_true, if_false, if_true]
    rcases fuel with _ | _ | _ | n
    · simp [createDocumentKey] at h
    · rw [e1] at h; simp [createDocumentKey] at h
    · rw [e1, e2] at h; simp [createDocumentKey] at h
    · rw [e1, e2, e3] at h; cases h

/-- C6 (what the code does instead): for every name and parent key such that
the name starts with none of the five configured markers, `createDocumentKey`
does not terminate: whatever the recursion budget, the call is still running
when it is used up; no key and no error is ever returned. -/
theorem createDocumentKey_unrecognized_never_returns (cfg : Config) (name : String) (p : Key)
    (h1 : strings.HasPrefix name cfg.SitzungType = false)
    (h2 : strings.HasPrefix name cfg.VorlageType = false)
    (h3 : strings.HasPrefix name cfg.TopType = false)
    (h4 : strings.HasPrefix name cfg.AnlageType = false)
    (h5 : strings.HasPrefix name cfg.AnlageDocumentType = false) :
    ∀ fuel, createDocumentKey cfg fuel name p = .diverge :=
  fun fuel => createDocumentKey_diverges_of_no_marker cfg name p h1 h2 h3 h4 h5 fuel

/-- C6, at a concrete input: with the markers `S`, `V`, `TOP`, `A`, `BA`, the
name `X-1` starts with no marker, and resolving it never returns. -/
theorem createDocumentKey_unrecognized_witness :
    firstMarker exampleConfig "X-1" = none
      ∧ ¬ ∃ fuel, createDocumentKey exampleConfig fuel "X-1" Key.nil ≠ .diverge :=
  ⟨by decide, fun ⟨fuel, h⟩ => h (createDocumentKey_unrecognized_never_returns exampleConfig
    "X-1" Key.nil (by decide) (by decide) (by decide) (by decide) (by decide) fuel)⟩

/-! ## Enrichment: the claims -/

theorem getEntityBeratungen_maps_records (sctx : SearchContext) (parentKey : Key)
    (entity : SearchEntity) (results : List SearchBeratung)
    (h : getEntityBeratungen sctx parentKey = .ret (entity, results, none)) :
    ∃ query beratungen, sctx.appContext.Db.GetAll query = .ok beratungen
      ∧ results = beratungen.map beratungOf
      ∧ results.length = beratungen.length := by
  unfold getEntityBeratungen at h
  cases parentKey with
  | nil => simp at h
  | NameKey kind name parent =>
    simp only at h
    split at h
    · simp at h
    · simp at h
    · rename_i query ent _
      split at h
      · simp at h
      · rename_i beratungen hq
        simp only [Outcome.ret.injEq, Prod.mk.injEq, and_true] at h
        exact ⟨query, beratungen, hq, h.2.symm, by rw [← h.2, List.length_map]⟩

theorem beratungOf_carried (b : Top) :
    (beratungOf b).Status = b.Status ∧ (beratungOf b).Typ = b.Typ
    ∧ (beratungOf b).BSVV = b.BSVV ∧ (beratungOf b).Datum = b.Datum.Unix
    ∧ (beratungOf b).SILFDNR = b.SILFDNR ∧ (beratungOf b).Beschlussart = b.Beschlussart
    ∧ (beratungOf b).Gremium = b.Gremium ∧ (beratungOf b).TOLFDNR = b.TOLFDNR
    ∧ (beratungOf b).Federfuehrend = b.Federfuehrend ∧ (beratungOf b).VOLFDNR = b.VOLFDNR :=
  ⟨rfl, rfl, rfl, rfl, rfl, rfl, rfl, rfl, rfl, rfl⟩

/-- C9 (what the code does instead): a successful `getEntityBeratungen` call
for a session key whose related-records query returns one record with
`Betreff = "Haushalt"` yields one `SearchBeratung` whose `Betreff` is empty (as
are `Bearbeiter` and `Oeff`): the literal sets ten of the thirteen fields. -/
theorem getEntityBeratungen_leaves_Betreff_empty :
    ∃ entity beratung source,
      getEntityBeratungen exampleContext (Key.NameKey "Sitzung" "2024" Key.nil)
        = .ret (entity, [beratung], none)
      ∧ exampleContext.appContext.Db.GetAll
          { kind := "Top", filter := "SILFDNR =", value := 1 } = .ok [source]
      ∧ source.Betreff = "Haushalt"
      ∧ beratung.Betreff = "" ∧ beratung.Bearbeiter = "" ∧ beratung.Oeff = ""
      ∧ beratung.Status = source.Status ∧ beratung.VOLFDNR = source.VOLFDNR :=
  ⟨_, _, _, rfl, rfl, rfl, rfl, rfl, rfl, rfl, rfl⟩

/-! ## Delete filter and publish ordering: the claims -/

theorem prepareSearchElem_document (sctx : SearchContext) (fuel : Nat) (elem : SearchParent)
    (documentName : String) (totalPages : Nat) (result : SearchElem)
    (h : prepareSearchElem sctx fuel elem documentName totalPages = .ret (result, none)) :
    ∃ kind name parent,
      createDocumentKey sctx.appContext.Config fuel (filepath.Base documentName) Key.nil
        = .ret (Key.NameKey kind name parent)
      ∧ parent ≠ Key.nil
      ∧ result.Document.Name = name
      ∧ result.Document.Filename = documentName
      ∧ result.Pages = elem.Pages ∧ result.TotalPages = totalPages := by
  unfold prepareSearchElem at h
  split at h
  · simp at h
  · simp at h
  · rename_i documentKey hk
    split at h
    · simp at h
    · rename_i kind name parent
      split at h
      · simp at h
      · simp at h
      · simp at h
      · split at h
        · simp at h
        · simp only [Outcome.ret.injEq, Prod.mk.injEq, and_true] at h
          subst h
          refine ⟨kind, name, parent, hk, ?_, rfl, rfl, rfl, rfl⟩
          intro hp
          subst hp
          simp_all [getEntityBeratungen]

/-- The delete filter never matches what the same invocation stores: in every
search element that `prepareSearchElem` assembles, `Document.Filename` is the
document name and `Document.Name`, the field the filter of
`deleteOldEntitiesInSearch` tests, is a key name that differs from the
document name. -/
theorem prepareSearchElem_name_ne_documentName (sctx : SearchContext) (fuel : Nat)
    (elem : SearchParent) (documentName : String) (totalPages : Nat) (result : SearchElem)
    (h : prepareSearchElem sctx fuel elem documentName totalPages = .ret (result, none)) :
    result.Document.Filename = documentName ∧ result.Document.Name ≠ documentName := by
  obtain ⟨kind, name, parent, hk, hp, hn, hf, _, _⟩ :=
    prepareSearchElem_document sctx fuel elem documentName totalPages result h
  refine ⟨hf, ?_⟩
  rw [hn]
  by_cases he : documentName.data = []
  · have hb : filepath.Base documentName = "." := by simp [filepath.Base, he]
    rw [hb] at hk
    exact absurd (createDocumentKey_no_hyphen _ fuel "." Key.nil kind name parent
      (by decide) hk) hp
  · have hl := filepath.base_length documentName he
    rcases (createDocumentKey_ret_name _ fuel _ Key.nil kind name parent hk).2 with h1 | h1
    · exact absurd h1 hp
    · intro e
      rw [e] at h1
      omega

/-- C7 (what the code does instead): for the document `S-2024-A-doc.pdf` the
filter passed to `DeleteBy` is `Document.Name:"S-2024-A-doc.pdf"`: it tests
the field `Document.Name`, which `prepareSearchElem` sets to the key name
`doc.pdf`, not the field `Document.Filename`, which it sets to the document
name.  The search element assembled for the document does not satisfy the
filter issued for the same document. -/
theorem deleteFilter_tests_name_not_filename :
    ∃ elem,
      prepareSearchElem exampleContext 2 { Pages := [] } "S-2024-A-doc.pdf" 0 = .ret (elem, none)
      ∧ elem.Document.Filename = "S-2024-A-doc.pdf"
      ∧ elem.Document.Name = "doc.pdf"
      ∧ (deleteOldEntitiesInSearch exampleContext "S-2024-A-doc.pdf").1
          = [IndexCall.DeleteBy "Document.Name:\"S-2024-A-doc.pdf\""]
      ∧ satisfiesFilter elem (deleteFilter "S-2024-A-doc.pdf") = false
      ∧ satisfiesFilter elem "Document.Filename:\"S-2024-A-doc.pdf\"" = true := by
  refine ⟨_, rfl, rfl, rfl, by decide, by decide, by decide⟩

theorem deleteOldEntitiesInSearch_calls (sctx : SearchContext) (documentName : String) :
    deleteOldEntitiesInSearch sctx documentName
      = ([IndexCall.DeleteBy (deleteFilter documentName)],
          sctx.SearchIndex.DeleteBy (deleteFilter documentName)) := rfl

theorem createEntitiesInSearch_calls (sctx : SearchContext) (fuel : Nat) (documentName : String) :
    (createEntitiesInSearch sctx fuel documentName).1 = []
    ∨ ∃ elems, createEntitiesInSearch sctx fuel documentName
        = ([IndexCall.SaveObjects elems true],
            .ret (sctx.SearchIndex.SaveObjects elems true)) := by
  unfold createEntitiesInSearch
  split
  · exact Or.inl rfl
  · split
    · exact Or.inl rfl
    · exact Or.inl rfl
    · exact Or.inl rfl
    · exact Or.inr ⟨_, rfl⟩

theorem createEntitiesInSearch_listing_error (sctx : SearchContext) (fuel : Nat)
    (documentName : String) (err : Error)
    (h : (sctx.appContext.Objects documentName).err = some err) :
    createEntitiesInSearch sctx fuel documentName = ([], .ret (some err)) := by
  have hp : ∀ (st : ChunkState) (objs : List OcrObject),
      processLoop st objs (some err) = (0, [], some err) := by
    intro st objs
    induction objs generalizing st with
    | nil => rfl
    | cons o os ih => exact ih _
  simp only [createEntitiesInSearch, processPage, h, hp]

/-- Publish ordering, as far as it holds: in every invocation, however it
ends, the index calls are `DeleteBy` alone or `DeleteBy` followed by one
`SaveObjects`; the latter only when `DeleteBy` answered without error, and then
the invocation returns what `SaveObjects` answered.  When `DeleteBy` fails, or
the listing fails, the error is returned and `DeleteBy` is the only call. -/
theorem UpdateSearchForDocument_calls (sctx : SearchContext) (fuel : Nat)
    (documentName : String) :
    ((UpdateSearchForDocument sctx fuel documentName).1
        = [IndexCall.DeleteBy (deleteFilter documentName)]
      ∨ ∃ elems, sctx.SearchIndex.DeleteBy (deleteFilter documentName) = none
          ∧ UpdateSearchForDocument sctx fuel documentName
            = ([IndexCall.DeleteBy (deleteFilter documentName),
                IndexCall.SaveObjects elems true],
               .ret (sctx.SearchIndex.SaveObjects elems true)))
    ∧ (∀ err, sctx.SearchIndex.DeleteBy (deleteFilter documentName) = some err →
        UpdateSearchForDocument sctx fuel documentName
          = ([IndexCall.DeleteBy (deleteFilter documentName)], .ret (some err)))
    ∧ (∀ err, sctx.SearchIndex.DeleteBy (deleteFilter documentName) = none →
        (sctx.appContext.Objects documentName).err = some err →
        UpdateSearchForDocument sctx fuel documentName
          = ([IndexCall.DeleteBy (deleteFilter documentName)], .ret (some err)))
    ∧ (∀ err elems totalPages pageelems,
        sctx.SearchIndex.DeleteBy (deleteFilter documentName) = none →
        processPage (sctx.appContext.Objects documentName) = (totalPages, pageelems, none) →
        prepareLoop sctx fuel documentName totalPages pageelems [] = .ret (elems, some err) →
        UpdateSearchForDocument sctx fuel documentName
          = ([IndexCall.DeleteBy (deleteFilter documentName)], .ret (some err))) := by
  refine ⟨?_, ?_, ?_, ?_⟩
  · cases hd : sctx.SearchIndex.DeleteBy (deleteFilter documentName) with
    | some e => left; simp [UpdateSearchForDocument, deleteOldEntitiesInSearch, hd]
    | none =>
      rcases createEntitiesInSearch_calls sctx fuel documentName with h | ⟨elems, h⟩
      · left
        simp [UpdateSearchForDocument, deleteOldEntitiesInSearch, hd, h]
      · right
        exact ⟨elems, rfl, by simp [UpdateSearchForDocument, deleteOldEntitiesInSearch, hd, h]⟩
  · intro err hd
    simp [UpdateSearchForDocument, deleteOldEntitiesInSearch, hd]
  · intro err hd hl
    simp [UpdateSearchForDocument, deleteOldEntitiesInSearch, hd,
      createEntitiesInSearch_listing_error sctx fuel documentName err hl]
  · intro err elems totalPages pageelems hd hpp hp
    have hc : createEntitiesInSearch sctx fuel documentName = ([], .ret (some err)) := by
      unfold createEntitiesInSearch
      rw [hpp]
      simp only [hp]
    simp [UpdateSearchForDocument, deleteOldEntitiesInSearch, hd, hc]

/-- C8 (what the code does instead): for the document name `X-1`, which starts
with no marker, with an index whose `DeleteBy` succeeds, key resolution fails
and `UpdateSearchForDocument` returns no error: whatever the recursion budget
it is still running when the budget is used up.  `DeleteBy` is the only index
call made. -/
theorem UpdateSearchForDocument_unrecognized_name :
    ∀ fuel, UpdateSearchForDocument exampleContext fuel "X-1"
      = ([IndexCall.DeleteBy (deleteFilter "X-1")], .diverge) := by
  intro fuel
  have hb : filepath.Base "X-1" = "X-1" := by decide
  have hk : createDocumentKey exampleContext.appContext.Config fuel "X-1" Key.nil = .diverge :=
    createDocumentKey_diverges_of_no_marker exampleConfig "X-1" Key.nil
      (by decide) (by decide) (by decide) (by decide) (by decide) fuel
  have hp : processPage (exampleContext.appContext.Objects "X-1")
      = (0, [{ Pages := [] }], none) := rfl
  have hprep : ∀ pe, prepareSearchElem exampleContext fuel pe "X-1" 0 = .diverge := by
    intro pe
    simp only [prepareSearchElem, hb, hk]
  have hloop : prepareLoop exampleContext fuel "X-1" 0 [{ Pages := [] }] [] = .diverge := by
    simp only [prepareLoop, hprep]
  have hc : createEntitiesInSearch exampleContext fuel "X-1" = ([], .diverge) := by
    simp only [createEntitiesInSearch, hp, hloop]
  have hd : exampleContext.SearchIndex.DeleteBy (deleteFilter "X-1") = none := rfl
  simp [UpdateSearchForDocument, deleteOldEntitiesInSearch, hd, hc]

end Search
